import Mathlib

/-!
Shallow embedding of the dynamic native-module cache and symbol-resolution
subsystem (`src/box/module_cache.c`) and proofs about it.

The two process-wide hashes `box_schema_hash` (legacy `box.schema.func`
generation) and `mod_hash` (modern generation) become two association lists
inside an explicit state record.  Modules and symbol bindings live in keyed
lists; the intrusive `rlist` of bindings attached to a module becomes the
`funcsList` field (head of the list = most recently `rlist_add`ed node, which
matches the iteration order of `rlist_foreach_entry`).  The filesystem plus
`package.search` plus `dlopen`/`dlsym` are abstracted into an injected
environment `FS` mapping a package name to the stat identity of the on-disk
file and the symbol table of the image it loads to.

C functions that return `-1` with a diagnostic become `MCOut.err`; `panic()`
calls, failed `assert()`s and undefined behaviour (use of a freed module,
out-of-bounds hash node access) become `MCOut.crash`.
-/

namespace MC

/-- Association list lookup (models `mh_strnptr_find_inp` and `dlsym`). -/
def aget {α β : Type} [DecidableEq α] : List (α × β) → α → Option β
  | [], _ => none
  | (k1, v) :: rest, k => if k1 = k then some v else aget rest k

/-- Association list delete (models `mh_strnptr_del`). -/
def adel {α β : Type} [DecidableEq α] : List (α × β) → α → List (α × β)
  | [], _ => []
  | (k1, v) :: rest, k => if k1 = k then adel rest k else (k1, v) :: adel rest k

/-- Association list insert-or-replace (models `mh_strnptr_put` / value update). -/
def aset {α β : Type} [DecidableEq α] (l : List (α × β)) (k : α) (v : β) :
    List (α × β) :=
  (k, v) :: adel l k

/-- `(dev, ino, size, mtime)` captured by `stat()`; `struct module::st`. -/
structure Identity where
  dev : Nat
  ino : Nat
  size : Nat
  mtime : Nat
deriving DecidableEq, Repr

/-- A loaded image's exported symbols: what `dlsym` can resolve. -/
abbrev SymTable := List (String × Nat)

/--
`struct module`.  `hash` is the back pointer to the hash the module lives in:
`some true` = `box_schema_hash` (legacy), `some false` = `mod_hash` (modern),
`none` = orphan (`module_set_orphan` wrote NULL).  `funcsList` is the intrusive
`funcs_list` of attached bindings, head first.
-/
structure Module where
  package : String
  handle : SymTable
  st : Identity
  refs : Nat
  hash : Option Bool
  funcsList : List Nat
deriving DecidableEq, Repr

/-- `struct module_sym`: a binding.  `addr = none` means unresolved. -/
structure ModuleSym where
  name : String
  module : Option Nat
  addr : Option Nat
deriving DecidableEq, Repr

/--
The global state: all live modules keyed by id, all bindings keyed by id,
and the two hashes (package name to module id).
-/
structure MCState where
  modules : List (Nat × Module)
  syms : List (Nat × ModuleSym)
  legacyCache : List (String × Nat)
  modernCache : List (String × Nat)
  nextId : Nat
deriving DecidableEq, Repr

/-- Injected environment: package name to (stat identity, image symbol table). -/
abbrev FS := String → Option (Identity × SymTable)

/-- Error kinds surfaced through `diag_set` and `-1` returns. -/
inductive MCError where
  | NotFound
  | LoadError
  | SymbolNotFound
  | NoSuchModule
  | OutOfMemory
  | NativeError
deriving DecidableEq, Repr

/--
Outcome of an operation: `ok` (0 return), `err` (−1 return, diagnostics set,
state persists), `crash` (`panic()`, failed `assert`, or undefined behaviour).
-/
inductive MCOut (α : Type) where
  | ok : α → MCOut α
  | err : MCError → MCState → MCOut α
  | crash : MCOut α
deriving DecidableEq, Repr

/-- Parsed symbol and package names (`struct func_name`). -/
structure FuncName where
  sym : String
  package : String
deriving DecidableEq, Repr

/-- Character test used to model `strrchr(str, '.')`. -/
def notDot (c : Char) : Bool :=
  c ≠ '.'

/--
`func_split_name`: split at the last `.`; e.g. `foo.bar.baz` gives
`package = foo.bar`, `sym = baz`; with no dot, `package = sym =` the input.
`strrchr` is modelled by spanning the reversed character list at the first dot.
-/
def func_split_name (str : String) : FuncName :=
  match str.toList.reverse.span notDot with
  | (_, []) => { sym := str, package := str }
  | (revSym, _ :: revPkg) =>
      { sym := ⟨revSym.reverse⟩, package := ⟨revPkg.reverse⟩ }

/-! ### State accessors -/

/-- `hash_tbl(is_box_schema)`: `true` selects `box_schema_hash`. -/
def getCache (s : MCState) (legacy : Bool) : List (String × Nat) :=
  if legacy then s.legacyCache else s.modernCache

def setCache (s : MCState) (legacy : Bool) (c : List (String × Nat)) : MCState :=
  if legacy then { s with legacyCache := c } else { s with modernCache := c }

def getModule (s : MCState) (mid : Nat) : Option Module :=
  aget s.modules mid

def setModule (s : MCState) (mid : Nat) (m : Module) : MCState :=
  { s with modules := aset s.modules mid m }

def removeModule (s : MCState) (mid : Nat) : MCState :=
  { s with modules := adel s.modules mid }

def getSym (s : MCState) (sid : Nat) : Option ModuleSym :=
  aget s.syms sid

def setSym (s : MCState) (sid : Nat) (x : ModuleSym) : MCState :=
  { s with syms := aset s.syms sid x }

/-! ### Cache primitives (`module_cache_*`) -/

/-- `module_cache_find`. -/
def module_cache_find (s : MCState) (legacy : Bool) (pkg : String) : Option Nat :=
  aget (getCache s legacy) pkg

/--
`module_cache_add`: hash the module's package and put it into `module->hash`.
The `OutOfMemory` branch of `mh_strnptr_put` is not modelled (allocation
always succeeds in the model).
-/
def module_cache_add (s : MCState) (legacy : Bool) (pkg : String) (mid : Nat) : MCState :=
  setCache s legacy (aset (getCache s legacy) pkg mid)

/-- `module_cache_update`: in-place value replace; fails if the key is absent. -/
def module_cache_update (s : MCState) (legacy : Bool) (pkg : String) (mid : Nat) :
    Option MCState :=
  match aget (getCache s legacy) pkg with
  | none => none
  | some _ => some (setCache s legacy (aset (getCache s legacy) pkg mid))

/-- `module_cache_del`: delete whatever entry sits under the module's package key. -/
def module_cache_del (s : MCState) (legacy : Bool) (pkg : String) : MCState :=
  setCache s legacy (adel (getCache s legacy) pkg)

/-- `module_set_orphan`: `module->hash = NULL`.  `none` = freed module (UB). -/
def module_set_orphan (s : MCState) (mid : Nat) : Option MCState :=
  match getModule s mid with
  | none => none
  | some m => some (setModule s mid { m with hash := none })

/-- `module_is_orphan`. -/
def module_is_orphan (m : Module) : Bool :=
  m.hash = none

/-! ### Reference counting -/

/-- `module_ref`: increment.  `none` = the module was already freed (UB). -/
def module_ref (s : MCState) (mid : Nat) : Option MCState :=
  match getModule s mid with
  | none => none
  | some m => some (setModule s mid { m with refs := m.refs + 1 })

/--
`module_unref`: decrement; on reaching zero delete the module, first removing
it from its cache unless it is an orphan.  `none` = the `assert(refs > 0)`
fails or the module was already freed (UB).
-/
def module_unref (s : MCState) (mid : Nat) : Option MCState :=
  match getModule s mid with
  | none => none
  | some m =>
    if m.refs = 0 then none
    else if m.refs = 1 then
      let s1 := match m.hash with
        | some legacy => module_cache_del s legacy m.package
        | none => s
      some (removeModule s1 mid)
    else
      some (setModule s mid { m with refs := m.refs - 1 })

/-! ### Loading -/

/--
`module_new`: stat the source, copy it to a unique staging path, `dlopen` the
copy, and return a fresh module with `refs = 1` (the trailing `module_ref`).
All filesystem and linker failures are collapsed into the `fs` environment
returning `none` (`LoadError`).  The staging-path mechanics leave no trace in
the state and are not modelled.
-/
def module_new (fs : FS) (s : MCState) (legacy : Bool) (pkg : String) :
    MCOut (MCState × Nat) :=
  match fs pkg with
  | none => .err .LoadError s
  | some (ident, tbl) =>
    let mid := s.nextId
    let m : Module := { package := pkg, handle := tbl, st := ident,
                        refs := 1, hash := some legacy, funcsList := [] }
    .ok ({ s with modules := (mid, m) :: s.modules, nextId := mid + 1 }, mid)

/-- `module_sym`: `dlsym` into a module's image. -/
def module_sym (m : Module) (nm : String) : Option Nat :=
  aget m.handle nm

/--
`module_sym_load`: resolve a binding.  Legacy (`is_box_schema`) requests go
through `box_schema_hash` with lazy load on miss; modern requests arrive with
`mod_sym->module` already set and referenced.  `module_find` (the Lua
`package.search` path resolution) is the `fs name.package` check.
-/
def module_sym_load (fs : FS) (s : MCState) (sid : Nat) (is_box_schema : Bool) :
    MCOut MCState :=
  match getSym s sid with
  | none => .crash
  | some msym =>
    match msym.addr with
    | some _ => .crash  -- assert(mod_sym->addr == NULL)
    | none =>
      let name := func_split_name msym.name
      let acquire : MCOut (MCState × Nat) :=
        if is_box_schema then
          match module_cache_find s true name.package with
          | none =>
            match fs name.package with  -- module_find
            | none => .err .NotFound s
            | some _ =>
              match module_new fs s true name.package with
              | .err e s1 => .err e s1
              | .crash => .crash
              | .ok (s1, mid) => .ok (module_cache_add s1 true name.package mid, mid)
          | some cachedId =>
            match module_ref s cachedId with
            | none => .crash
            | some s1 => .ok (s1, cachedId)
        else
          match msym.module with
          | none => .crash
          | some mid =>
            match getModule s mid with
            | none => .crash
            | some m =>
              if m.refs = 0 then .crash  -- assert(mod_sym->module->refs > 0)
              else
                match module_ref s mid with
                | none => .crash
                | some s1 => .ok (s1, mid)
      match acquire with
      | .crash => .crash
      | .err e s1 => .err e s1
      | .ok (s2, mid) =>
        -- mod_sym->module = module (written in the legacy branch; in the
        -- modern branch it already holds this very value)
        let s3 := setSym s2 sid { msym with module := some mid }
        match getModule s3 mid with
        | none => .crash
        | some m =>
          match module_sym m name.sym with
          | none =>
            match module_unref s3 mid with
            | none => .crash
            | some s4 => .err .SymbolNotFound s4
          | some a =>
            let s4 := setSym s3 sid { name := msym.name, module := some mid, addr := some a }
            match getModule s4 mid with
            | none => .crash
            | some m1 =>
              .ok (setModule s4 mid { m1 with funcsList := sid :: m1.funcsList })

/-- `module_sym_unload`: unlink the binding, then drop its module reference. -/
def module_sym_unload (s : MCState) (sid : Nat) : MCOut MCState :=
  match getSym s sid with
  | none => .crash
  | some msym =>
    match msym.addr with
    | none => .ok s
    | some _ =>
      match msym.module with
      | none => .crash
      | some mid =>
        match getModule s mid with
        | none => .crash
        | some m =>
          let s1 := setModule s mid { m with funcsList := m.funcsList.erase sid }
          match module_unref s1 mid with
          | none => .crash
          | some s2 => .ok (setSym s2 sid { msym with module := none, addr := none })

/--
`module_sym_call`: lazily resolve a legacy binding, then snapshot the
binding's module, reference it, invoke the entry point, and drop the
reference afterwards.  The native invocation (which may suspend and let other
operations interleave) is the injected `body`, returning the state after the
interleaved work and the callee's return code.  Argument/result marshalling
through ports is not modelled.
-/
def module_sym_call (fs : FS) (body : MCState → MCState × Int) (s : MCState)
    (sid : Nat) : MCOut MCState :=
  let r : MCOut MCState :=
    match getSym s sid with
    | none => .crash
    | some msym =>
      match msym.addr with
      | none => module_sym_load fs s sid true
      | some _ => .ok s
  match r with
  | .crash => .crash
  | .err e s1 => .err e s1
  | .ok s1 =>
    match getSym s1 sid with
    | none => .crash
    | some msym1 =>
      match msym1.module with
      | none => .crash  -- assert(module != NULL)
      | some mid =>
        match module_ref s1 mid with
        | none => .crash
        | some s2 =>
          let br := body s2
          match module_unref br.1 mid with
          | none => .crash
          | some s4 =>
            if br.2 ≠ 0 then .err .NativeError s4 else .ok s4

/--
`module_load` (modern generation): resolve the path, consult `mod_hash`; on a
miss load and insert; on a hit compare the on-disk stat identity with the
cached one field by field, taking the cached copy when they agree and
replacing it (orphaning the old copy) otherwise.  Returns the module id the
caller now holds a reference to.
-/
def module_load (fs : FS) (s : MCState) (pkg : String) : MCOut (MCState × Nat) :=
  match fs pkg with
  | none => .err .NotFound s  -- module_find
  | some (curId, _) =>
    match module_cache_find s false pkg with
    | none =>
      match module_new fs s false pkg with
      | .err e s1 => .err e s1
      | .crash => .crash
      | .ok (s1, mid) => .ok (module_cache_add s1 false pkg mid, mid)
    | some cachedId =>
      match getModule s cachedId with
      | none => .crash
      | some cached =>
        -- stat(path, &st) on the current on-disk file
        if cached.st.dev = curId.dev ∧ cached.st.ino = curId.ino ∧
           cached.st.size = curId.size ∧ cached.st.mtime = curId.mtime then
          match module_ref s cachedId with
          | none => .crash
          | some s1 => .ok (s1, cachedId)
        else
          match module_new fs s false pkg with
          | .err e s1 => .err e s1
          | .crash => .crash
          | .ok (s1, mid) =>
            match module_cache_update s1 false pkg mid with
            | none =>
              match module_unref s1 mid with
              | none => .crash
              | some s2 => .err .OutOfMemory s2
            | some s2 =>
              match module_set_orphan s2 cachedId with
              | none => .crash
              | some s3 => .ok (s3, mid)

/-- `module_unload`. -/
def module_unload (s : MCState) (mid : Nat) : MCOut MCState :=
  match module_unref s mid with
  | none => .crash
  | some s1 => .ok s1

/-- Result of the reload migration loop. -/
inductive LoopRes where
  | ok : MCState → LoopRes
  | restore : MCState → Nat → LoopRes
  | crash : LoopRes
deriving Repr

/--
The `rlist_foreach_entry_safe` migration loop of `module_reload`, iterating
over a snapshot of `old->funcs_list` (safe iteration caches the next node, and
the body only detaches the current one, so the snapshot order is the live
order).  On a resolution failure the binding's `addr` has just been clobbered
to NULL and control goes to `restore` carrying the failing binding.
-/
def reload_loop (oldId newId : Nat) : List Nat → MCState → LoopRes
  | [], s => .ok s
  | sid :: rest, s =>
    match getSym s sid, getModule s newId with
    | some msym, some newM =>
      let name := func_split_name msym.name
      match module_sym newM name.sym with
      | none => .restore (setSym s sid { msym with addr := none }) sid
      | some a =>
        let s1 := setSym s sid { name := msym.name, module := some newId, addr := some a }
        match getModule s1 oldId with
        | none => .crash
        | some oldM =>
          -- rlist_move(&new->funcs_list, &mod_sym->item)
          let s2 := setModule s1 oldId { oldM with funcsList := oldM.funcsList.erase sid }
          match getModule s2 newId with
          | none => .crash
          | some newM2 =>
            let s3 := setModule s2 newId { newM2 with funcsList := sid :: newM2.funcsList }
            match module_ref s3 newId with
            | none => .crash
            | some s4 =>
              match module_unref s4 oldId with
              | none => .crash
              | some s5 => reload_loop oldId newId rest s5
    | _, _ => .crash

/--
The `restore:` do-while of `module_reload`.  The C loop never advances
`mod_sym`: the body re-resolves the same binding against `old`, moves its node
to the head of `old->funcs_list` and re-checks
`mod_sym != rlist_first_entry(&old->funcs_list, ...)`.  `fuel` bounds the
iteration (one pass always suffices, because after `rlist_move` the binding is
the first entry).  A failed re-resolution is the
`panic("Can't restore module function, ...")`.
-/
def restore_loop (oldId newId : Nat) : Nat → Nat → MCState → MCOut MCState
  | 0, _, _ => .crash
  | fuel + 1, sid, s =>
    match getSym s sid, getModule s oldId with
    | some msym, some oldM =>
      let name := func_split_name msym.name
      match module_sym oldM name.sym with
      | none => .crash  -- panic: restore failed
      | some a =>
        let s1 := setSym s sid { name := msym.name, module := some oldId, addr := some a }
        match getModule s1 oldId with
        | none => .crash
        | some oldM1 =>
          -- rlist_move(&old->funcs_list, &mod_sym->item); the node is in
          -- old's list here (the failing binding was never migrated)
          let s2 := setModule s1 oldId
            { oldM1 with funcsList := sid :: oldM1.funcsList.erase sid }
          match module_ref s2 oldId with
          | none => .crash
          | some s3 =>
            match module_unref s3 newId with
            | none => .crash
            | some s4 =>
              match getModule s4 oldId with
              | none => .crash
              | some oldM2 =>
                if oldM2.funcsList.head? = some sid then .ok s4
                else restore_loop oldId newId fuel sid s4
    | _, _ => .crash

/--
`module_reload` (legacy generation): load a replacement image, migrate every
binding on `old->funcs_list` to it, update `box_schema_hash`, orphan and
release the old module.  On a symbol miss, run the `restore:` sequence, check
`assert(rlist_empty(&new->funcs_list))`, release the new module and fail.
Touching the new module after the restore loop freed it is undefined
behaviour (`crash`).
-/
def module_reload (fs : FS) (s : MCState) (pkg : String) : MCOut MCState :=
  match module_cache_find s true pkg with
  | none => .err .NoSuchModule s
  | some oldId =>
    match fs pkg with
    | none => .err .NotFound s  -- module_find
    | some _ =>
      match module_new fs s true pkg with
      | .err e s1 => .err e s1
      | .crash => .crash
      | .ok (s1, newId) =>
        match module_ref s1 oldId with  -- extra ref until cache gets updated
        | none => .crash
        | some s2 =>
          match getModule s2 oldId with
          | none => .crash
          | some oldM =>
            match reload_loop oldId newId oldM.funcsList s2 with
            | .crash => .crash
            | .ok s3 =>
              match module_cache_update s3 true pkg newId with
              | none => .crash  -- panic: can't update module cache
              | some s4 =>
                match module_set_orphan s4 oldId with
                | none => .crash
                | some s5 =>
                  match module_unref s5 oldId with
                  | none => .crash
                  | some s6 =>
                    match module_unref s6 newId with  -- from explicit load above
                    | none => .crash
                    | some s7 => .ok s7
            | .restore s3 sid =>
              match module_set_orphan s3 newId with
              | none => .crash
              | some s4 =>
                match restore_loop oldId newId (s4.syms.length + 1) sid s4 with
                | .crash => .crash
                | .err e s5 => .err e s5
                | .ok s5 =>
                  match getModule s5 newId with
                  | none => .crash  -- the restore loop freed new: use after free
                  | some newM =>
                    if newM.funcsList = [] then
                      match module_unref s5 newId with
                      | none => .crash
                      | some s6 => .err .SymbolNotFound s6
                    else .crash  -- assert(rlist_empty(&new->funcs_list)) fails

/-- `module_init`: create both (empty) hashes.  The OOM path is not modelled. -/
def module_init : MCState :=
  { modules := [], syms := [], legacyCache := [], modernCache := [], nextId := 0 }

/--
One iteration of `module_free`'s outer loop, for one hash: read the node at
`mh_first(h)` — undefined behaviour when the hash is empty (`crash`) — unref
that single module, then `mh_strnptr_delete` the table.  There is no inner
loop over the remaining entries in the code.
-/
def module_free_one (s : MCState) (legacy : Bool) : MCOut MCState :=
  match (getCache s legacy).head? with
  | none => .crash  -- mh_first on an empty hash: invalid node dereference
  | some (_, mid) =>
    match module_unref s mid with
    | none => .crash
    | some s1 => .ok (setCache s1 legacy [])

/-- `module_free`: process `box_schema_hash`, then `mod_hash`. -/
def module_free (s : MCState) : MCOut MCState :=
  match module_free_one s true with
  | .ok s1 => module_free_one s1 false
  | .err e s1 => .err e s1
  | .crash => .crash

/-!
### Concrete scenario material

A package `m` whose image exports `f1` and `f2`, a replacement image with new
addresses, and a defective replacement missing `f2`.
-/

def identOld : Identity := { dev := 1, ino := 2, size := 3, mtime := 4 }

def identNew : Identity := { dev := 1, ino := 2, size := 3, mtime := 5 }

def oldTbl : SymTable := [("f1", 10), ("f2", 20)]

def newTbl : SymTable := [("f1", 11), ("f2", 21)]

def fsOld : FS := fun pkg => if pkg = "m" then some (identOld, oldTbl) else none

def fsNew : FS := fun pkg => if pkg = "m" then some (identNew, newTbl) else none

/-- Replacement image that no longer exports `f2`. -/
def fsNoF2 : FS := fun pkg => if pkg = "m" then some (identNew, [("f1", 11)]) else none

/-- Two unresolved legacy bindings `m.f1` and `m.f2`, nothing loaded yet. -/
def bindState0 : MCState :=
  { modules := [],
    syms := [(1, { name := "m.f1", module := none, addr := none }),
             (2, { name := "m.f2", module := none, addr := none })],
    legacyCache := [], modernCache := [], nextId := 0 }

/-- Sequence operations that return `MCOut MCState`. -/
def andThen (r : MCOut MCState) (f : MCState → MCOut MCState) : MCOut MCState :=
  match r with
  | .ok s => f s
  | r => r

/-- The S1 run: two legacy `bind_symbol` calls for `m.f1` then `m.f2`. -/
def s1Run : MCOut MCState :=
  andThen (module_sym_load fsOld bindState0 1 true)
    (fun s => module_sym_load fsOld s 2 true)

/-- One legacy unbind appended to a run. -/
def unbindStep (sid : Nat) (r : MCOut MCState) : MCOut MCState :=
  andThen r (fun s => module_sym_unload s sid)

/-- Refcount of the module cached in `box_schema_hash` under `pkg`, if any. -/
def cachedRefs (r : MCOut MCState) (pkg : String) : Option Nat :=
  match r with
  | .ok s =>
    match aget s.legacyCache pkg with
    | some mid => (getModule s mid).map Module.refs
    | none => none
  | _ => none

/-- The legacy cache contents of a run's final state. -/
def legacyOf (r : MCOut MCState) : Option (List (String × Nat)) :=
  match r with
  | .ok s => some s.legacyCache
  | _ => none

/-- The module table of a run's final state. -/
def modulesOf (r : MCOut MCState) : Option (List (Nat × Module)) :=
  match r with
  | .ok s => some s.modules
  | _ => none

/-- Refcount of the module returned by a modern `module_load`. -/
def loadedRefs (r : MCOut (MCState × Nat)) : Option Nat :=
  match r with
  | .ok (s, mid) => (getModule s mid).map Module.refs
  | _ => none

/-- Refcount of module `mid` in a run's final state (for leak detection). -/
def leakedRefs (r : MCOut MCState) (mid : Nat) : Option Nat :=
  match r with
  | .ok s => (getModule s mid).map Module.refs
  | _ => none

/--
A fully resolved two-binding legacy state for package `m` whose binding list
is iterated `f1` first (ids: module 0; bindings 1 = `m.f1` at 10, 2 = `m.f2`
at 20).  `refs = 2`: one per resolved binding.
-/
def reloadState0 : MCState :=
  { modules := [(0, { package := "m", handle := oldTbl, st := identOld,
                      refs := 2, hash := some true, funcsList := [1, 2] })],
    syms := [(1, { name := "m.f1", module := some 0, addr := some 10 }),
             (2, { name := "m.f2", module := some 0, addr := some 20 })],
    legacyCache := [("m", 0)], modernCache := [], nextId := 1 }

/--
The in-flight work performed while a call through a binding is suspended
inside the callee: an explicit `module_reload` of the binding's package.  The
callee itself reports success (`0`).
-/
def reload_body (fs : FS) (pkg : String) (st : MCState) : MCState × Int :=
  match module_reload fs st pkg with
  | .ok st2 => (st2, 0)
  | .err _ st2 => (st2, 0)
  | .crash => (st, 0)

/--
State for the `module_free` leak scenario: modules 8 and 9 cached in
`box_schema_hash`, module 10 cached in `mod_hash`, one reference each.
-/
def freeState0 : MCState :=
  { modules := [(8, { package := "a", handle := [], st := identOld,
                      refs := 1, hash := some true, funcsList := [] }),
               (9, { package := "b", handle := [], st := identOld,
                      refs := 1, hash := some true, funcsList := [] }),
               (10, { package := "c", handle := [], st := identOld,
                      refs := 1, hash := some false, funcsList := [] })],
    syms := [],
    legacyCache := [("a", 8), ("b", 9)], modernCache := [("c", 10)], nextId := 11 }

/--
`reloadState0` plus a third, still unresolved binding `m.f9` (id 3) whose
symbol the image of `m` does not export.
-/
def reloadState9 : MCState :=
  { reloadState0 with
    syms := (3, { name := "m.f9", module := none, addr := none }) :: reloadState0.syms }

/-- The bindings of `reloadState0`, as a function of the binding id. -/
def symOfW : Nat → ModuleSym := fun sid =>
  if sid = 1 then { name := "m.f1", module := some 0, addr := some 10 }
  else { name := "m.f2", module := some 0, addr := some 20 }

/-- Addresses of `f1`/`f2` inside the replacement image `newTbl`. -/
def addrOfW : Nat → Nat := fun sid => if sid = 1 then 11 else 21

/-- A modern-generation cached module for `m` (id 0), one caller reference. -/
def modernState0 : MCState :=
  { modules := [(0, { package := "m", handle := oldTbl, st := identOld,
                      refs := 1, hash := some false, funcsList := [] })],
    syms := [], legacyCache := [], modernCache := [("m", 0)], nextId := 1 }

/--
An orphan module (id 0) that was replaced in `box_schema_hash` by a successor
(id 1) and is held by exactly one outstanding reference.
-/
def orphanState : MCState :=
  { modules := [(0, { package := "m", handle := oldTbl, st := identOld,
                      refs := 1, hash := none, funcsList := [] }),
               (1, { package := "m", handle := newTbl, st := identNew,
                      refs := 1, hash := some true, funcsList := [] })],
    syms := [], legacyCache := [("m", 1)], modernCache := [], nextId := 2 }

/-! ## Lemmas about the association-list primitives -/

@[simp] theorem aget_nil {α β : Type} [DecidableEq α] (k : α) :
    aget ([] : List (α × β)) k = none := rfl

@[simp] theorem aget_cons {α β : Type} [DecidableEq α] (k1 : α) (v : β)
    (l : List (α × β)) (k : α) :
    aget ((k1, v) :: l) k = if k1 = k then some v else aget l k := rfl

theorem aget_adel {α β : Type} [DecidableEq α] (l : List (α × β)) (k k1 : α) :
    aget (adel l k) k1 = if k = k1 then none else aget l k1 := by
  induction l with
  | nil => simp [adel]
  | cons p rest ih =>
    obtain ⟨k2, v⟩ := p
    by_cases h2 : k2 = k
    · subst h2
      by_cases h1 : k2 = k1
      · subst h1; simp [adel, ih]
      · simp [adel, ih, h1]
    · by_cases h1 : k2 = k1
      · subst h1
        have h3 : ¬ k = k2 := fun h => h2 h.symm
        simp [adel, h2, h3]
      · simp [adel, h2, h1, ih]

@[simp] theorem aget_aset_self {α β : Type} [DecidableEq α] (l : List (α × β)) (k : α) (v : β) :
    aget (aset l k v) k = some v := by
  simp [aset]

theorem aget_aset_ne {α β : Type} [DecidableEq α] (l : List (α × β)) (k k1 : α) (v : β)
    (h : k ≠ k1) : aget (aset l k v) k1 = aget l k1 := by
  have h2 : ¬ k = k1 := h
  simp [aset, h2, aget_adel]

theorem adel_idem {α β : Type} [DecidableEq α] (l : List (α × β)) (k : α) :
    adel (adel l k) k = adel l k := by
  induction l with
  | nil => rfl
  | cons p rest ih =>
    obtain ⟨k2, v⟩ := p
    by_cases h2 : k2 = k
    · simp [adel, h2, ih]
    · simp [adel, h2, ih]

theorem adel_of_aget_none {α β : Type} [DecidableEq α] (l : List (α × β)) (k : α)
    (h : aget l k = none) : adel l k = l := by
  induction l with
  | nil => rfl
  | cons p rest ih =>
    obtain ⟨k2, v⟩ := p
    by_cases h2 : k2 = k
    · subst h2; simp at h
    · simp [adel, h2]
      exact ih (by simpa [h2] using h)

/-! ## Frame lemmas about the state accessors -/

@[simp] theorem getModule_setSym (s : MCState) (sid : Nat) (x : ModuleSym) (mid : Nat) :
    getModule (setSym s sid x) mid = getModule s mid := rfl

@[simp] theorem getSym_setModule (s : MCState) (mid : Nat) (m : Module) (sid : Nat) :
    getSym (setModule s mid m) sid = getSym s sid := rfl

@[simp] theorem legacyCache_setModule (s : MCState) (mid : Nat) (m : Module) :
    (setModule s mid m).legacyCache = s.legacyCache := rfl

@[simp] theorem modernCache_setModule (s : MCState) (mid : Nat) (m : Module) :
    (setModule s mid m).modernCache = s.modernCache := rfl

@[simp] theorem nextId_setModule (s : MCState) (mid : Nat) (m : Module) :
    (setModule s mid m).nextId = s.nextId := rfl

@[simp] theorem syms_setModule (s : MCState) (mid : Nat) (m : Module) :
    (setModule s mid m).syms = s.syms := rfl

@[simp] theorem legacyCache_setSym (s : MCState) (sid : Nat) (x : ModuleSym) :
    (setSym s sid x).legacyCache = s.legacyCache := rfl

@[simp] theorem modernCache_setSym (s : MCState) (sid : Nat) (x : ModuleSym) :
    (setSym s sid x).modernCache = s.modernCache := rfl

@[simp] theorem nextId_setSym (s : MCState) (sid : Nat) (x : ModuleSym) :
    (setSym s sid x).nextId = s.nextId := rfl

@[simp] theorem modules_setSym (s : MCState) (sid : Nat) (x : ModuleSym) :
    (setSym s sid x).modules = s.modules := rfl

theorem getModule_setModule (s : MCState) (mid : Nat) (m : Module) (mid1 : Nat) :
    getModule (setModule s mid m) mid1 =
      if mid = mid1 then some m else getModule s mid1 := by
  by_cases h : mid = mid1
  · subst h; simp [getModule, setModule]
  · simp [getModule, setModule, h, aget_aset_ne _ _ _ _ h]

@[simp] theorem getModule_setModule_self (s : MCState) (mid : Nat) (m : Module) :
    getModule (setModule s mid m) mid = some m := by
  simp [getModule_setModule]

theorem getModule_setModule_ne (s : MCState) (mid : Nat) (m : Module) (mid1 : Nat)
    (h : mid ≠ mid1) : getModule (setModule s mid m) mid1 = getModule s mid1 := by
  simp [getModule_setModule, h]

theorem getSym_setSym (s : MCState) (sid : Nat) (x : ModuleSym) (sid1 : Nat) :
    getSym (setSym s sid x) sid1 =
      if sid = sid1 then some x else getSym s sid1 := by
  by_cases h : sid = sid1
  · subst h; simp [getSym, setSym]
  · simp [getSym, setSym, h, aget_aset_ne _ _ _ _ h]

@[simp] theorem getSym_setSym_self (s : MCState) (sid : Nat) (x : ModuleSym) :
    getSym (setSym s sid x) sid = some x := by
  simp [getSym_setSym]

theorem getSym_setSym_ne (s : MCState) (sid : Nat) (x : ModuleSym) (sid1 : Nat)
    (h : sid ≠ sid1) : getSym (setSym s sid x) sid1 = getSym s sid1 := by
  simp [getSym_setSym, h]

@[simp] theorem getSym_removeModule (s : MCState) (mid sid : Nat) :
    getSym (removeModule s mid) sid = getSym s sid := rfl

@[simp] theorem legacyCache_removeModule (s : MCState) (mid : Nat) :
    (removeModule s mid).legacyCache = s.legacyCache := rfl

@[simp] theorem modernCache_removeModule (s : MCState) (mid : Nat) :
    (removeModule s mid).modernCache = s.modernCache := rfl

@[simp] theorem nextId_removeModule (s : MCState) (mid : Nat) :
    (removeModule s mid).nextId = s.nextId := rfl

@[simp] theorem syms_removeModule (s : MCState) (mid : Nat) :
    (removeModule s mid).syms = s.syms := rfl

theorem getModule_removeModule (s : MCState) (mid mid1 : Nat) :
    getModule (removeModule s mid) mid1 =
      if mid = mid1 then none else getModule s mid1 := by
  simp [getModule, removeModule, aget_adel]

theorem setModule_setModule (s : MCState) (mid : Nat) (m1 m2 : Module) :
    setModule (setModule s mid m1) mid m2 = setModule s mid m2 := by
  simp [setModule, aset, adel, adel_idem]

@[simp] theorem getCache_true (s : MCState) : getCache s true = s.legacyCache := rfl

@[simp] theorem getCache_false (s : MCState) : getCache s false = s.modernCache := rfl

@[simp] theorem modules_setCache (s : MCState) (legacy : Bool) (c : List (String × Nat)) :
    (setCache s legacy c).modules = s.modules := by
  cases legacy <;> rfl

@[simp] theorem syms_setCache (s : MCState) (legacy : Bool) (c : List (String × Nat)) :
    (setCache s legacy c).syms = s.syms := by
  cases legacy <;> rfl

@[simp] theorem nextId_setCache (s : MCState) (legacy : Bool) (c : List (String × Nat)) :
    (setCache s legacy c).nextId = s.nextId := by
  cases legacy <;> rfl

@[simp] theorem getModule_setCache (s : MCState) (legacy : Bool) (c : List (String × Nat))
    (mid : Nat) : getModule (setCache s legacy c) mid = getModule s mid := by
  cases legacy <;> rfl

@[simp] theorem getSym_setCache (s : MCState) (legacy : Bool) (c : List (String × Nat))
    (sid : Nat) : getSym (setCache s legacy c) sid = getSym s sid := by
  cases legacy <;> rfl

@[simp] theorem legacyCache_setCache_true (s : MCState) (c : List (String × Nat)) :
    (setCache s true c).legacyCache = c := rfl

@[simp] theorem modernCache_setCache_true (s : MCState) (c : List (String × Nat)) :
    (setCache s true c).modernCache = s.modernCache := rfl

@[simp] theorem legacyCache_setCache_false (s : MCState) (c : List (String × Nat)) :
    (setCache s false c).legacyCache = s.legacyCache := rfl

@[simp] theorem modernCache_setCache_false (s : MCState) (c : List (String × Nat)) :
    (setCache s false c).modernCache = c := rfl

/-! ## Step lemmas: one rewrite per C statement -/

theorem module_ref_some (s : MCState) (mid : Nat) (m : Module)
    (h : getModule s mid = some m) :
    module_ref s mid = some (setModule s mid { m with refs := m.refs + 1 }) := by
  simp [module_ref, h]

theorem module_unref_dec (s : MCState) (mid : Nat) (m : Module)
    (h : getModule s mid = some m) (h2 : 2 ≤ m.refs) :
    module_unref s mid = some (setModule s mid { m with refs := m.refs - 1 }) := by
  unfold module_unref
  rw [h]
  have h0 : ¬ m.refs = 0 := by omega
  have h1 : ¬ m.refs = 1 := by omega
  simp [h0, h1]

theorem module_unref_last_orphan (s : MCState) (mid : Nat) (m : Module)
    (h : getModule s mid = some m) (ho : m.hash = none) (hr : m.refs = 1) :
    module_unref s mid = some (removeModule s mid) := by
  unfold module_unref
  rw [h]
  simp [hr, ho]

theorem module_unref_last_cached (s : MCState) (mid : Nat) (m : Module) (legacy : Bool)
    (h : getModule s mid = some m) (ho : m.hash = some legacy) (hr : m.refs = 1) :
    module_unref s mid =
      some (removeModule (module_cache_del s legacy m.package) mid) := by
  unfold module_unref
  rw [h]
  simp [hr, ho]

theorem module_new_ok (fs : FS) (s : MCState) (legacy : Bool) (pkg : String)
    (ident : Identity) (tbl : SymTable) (h : fs pkg = some (ident, tbl)) :
    module_new fs s legacy pkg =
      .ok ({ s with
             modules := (s.nextId,
               { package := pkg, handle := tbl, st := ident, refs := 1,
                 hash := some legacy, funcsList := [] }) :: s.modules,
             nextId := s.nextId + 1 }, s.nextId) := by
  simp [module_new, h]

theorem module_cache_update_found (s : MCState) (legacy : Bool) (pkg : String)
    (mid cid : Nat) (h : aget (getCache s legacy) pkg = some cid) :
    module_cache_update s legacy pkg mid =
      some (setCache s legacy (aset (getCache s legacy) pkg mid)) := by
  simp [module_cache_update, h]

theorem module_set_orphan_some (s : MCState) (mid : Nat) (m : Module)
    (h : getModule s mid = some m) :
    module_set_orphan s mid = some (setModule s mid { m with hash := none }) := by
  simp [module_set_orphan, h]

/-! ## The name parser -/

@[simp] theorem notDot_eq_true (c : Char) : notDot c = true ↔ c ≠ '.' := by
  simp [notDot]

theorem takeWhile_dot_append (l r : List Char) (h : '.' ∉ l) :
    (l ++ '.' :: r).takeWhile notDot = l := by
  induction l with
  | nil =>
    rw [List.nil_append, List.takeWhile_cons]
    simp [notDot]
  | cons c cs ih =>
    have hc : notDot c = true := by
      simp only [notDot_eq_true]
      exact fun hh => h (hh ▸ List.mem_cons_self c cs)
    have hcs : '.' ∉ cs := fun hh => h (List.mem_cons_of_mem c hh)
    rw [List.cons_append, List.takeWhile_cons, hc, if_pos rfl, ih hcs]

theorem dropWhile_dot_append (l r : List Char) (h : '.' ∉ l) :
    (l ++ '.' :: r).dropWhile notDot = '.' :: r := by
  induction l with
  | nil =>
    rw [List.nil_append, List.dropWhile_cons]
    simp [notDot]
  | cons c cs ih =>
    have hc : notDot c = true := by
      simp only [notDot_eq_true]
      exact fun hh => h (hh ▸ List.mem_cons_self c cs)
    have hcs : '.' ∉ cs := fun hh => h (List.mem_cons_of_mem c hh)
    rw [List.cons_append, List.dropWhile_cons, hc, if_pos rfl, ih hcs]

theorem takeWhile_no_dot (l : List Char) (h : '.' ∉ l) :
    l.takeWhile notDot = l := by
  induction l with
  | nil => rfl
  | cons c cs ih =>
    have hc : notDot c = true := by
      simp only [notDot_eq_true]
      exact fun hh => h (hh ▸ List.mem_cons_self c cs)
    have hcs : '.' ∉ cs := fun hh => h (List.mem_cons_of_mem c hh)
    rw [List.takeWhile_cons, hc, if_pos rfl, ih hcs]

theorem dropWhile_no_dot (l : List Char) (h : '.' ∉ l) :
    l.dropWhile notDot = [] := by
  induction l with
  | nil => rfl
  | cons c cs ih =>
    have hc : notDot c = true := by
      simp only [notDot_eq_true]
      exact fun hh => h (hh ▸ List.mem_cons_self c cs)
    have hcs : '.' ∉ cs := fun hh => h (List.mem_cons_of_mem c hh)
    rw [List.dropWhile_cons, hc, if_pos rfl, ih hcs]

theorem func_split_name_of_span_dot (str : String) (sR pR : List Char)
    (h : str.toList.reverse.span notDot = (sR, '.' :: pR)) :
    func_split_name str = { sym := ⟨sR.reverse⟩, package := ⟨pR.reverse⟩ } := by
  unfold func_split_name
  rw [h]

theorem func_split_name_of_span_nodot (str : String) (sR : List Char)
    (h : str.toList.reverse.span notDot = (sR, [])) :
    func_split_name str = { sym := str, package := str } := by
  unfold func_split_name
  rw [h]

/--
**C8 (amended).**  The parser splits at the last dot: for any package part `p`
and dot-free symbol part `s`, `p ++ "." ++ s` parses to
`package = p, sym = s`; any dot-free input (the empty string included) parses
to `package = sym =` the input with no failure.
-/
theorem C8_split_last_dot (p s : String) (hs : '.' ∉ s.data) :
    func_split_name (p ++ "." ++ s) = { sym := s, package := p } ∧
    func_split_name s = { sym := s, package := s } := by
  have hrevmem : '.' ∉ s.data.reverse := fun hh => hs (List.mem_reverse.mp hh)
  constructor
  · have hdata : (p ++ "." ++ s).toList = p.data ++ '.' :: s.data := by
      have hdot : ("." : String).data = ['.'] := rfl
      simp [String.toList, String.data_append, hdot]
    have hrev : (p ++ "." ++ s).toList.reverse = s.data.reverse ++ '.' :: p.data.reverse := by
      rw [hdata]
      simp [List.reverse_append]
    have hspan : (p ++ "." ++ s).toList.reverse.span notDot =
        (s.data.reverse, '.' :: p.data.reverse) := by
      rw [hrev, List.span_eq_take_drop,
          takeWhile_dot_append _ _ hrevmem, dropWhile_dot_append _ _ hrevmem]
    rw [func_split_name_of_span_dot _ _ _ hspan]
    simp
  · have hspan : s.toList.reverse.span notDot = (s.data.reverse, []) := by
      rw [List.span_eq_take_drop]
      simp only [String.toList]
      rw [takeWhile_no_dot _ hrevmem, dropWhile_no_dot _ hrevmem]
    exact func_split_name_of_span_nodot _ _ hspan

/-- Witness for C8: a concrete three-component name. -/
theorem C8_split_last_dot_witness :
    func_split_name ("foo.bar" ++ "." ++ "baz") = { sym := "baz", package := "foo.bar" } ∧
    func_split_name "baz" = { sym := "baz", package := "baz" } :=
  C8_split_last_dot "foo.bar" "baz" (by decide)

/--
**C8 (counterexample).**  The claim says every empty input is invalid and
fails with `BadName`; in the code `func_split_name` has no failure path at
all: the empty string parses to `package = sym = ""`.
-/
theorem C8_counterexample :
    func_split_name "" = { sym := "", package := "" } := by decide

/-! ## C1: the legacy bind scenario -/

/--
**C1 (counterexample).**  After init and two legacy `bind_symbol` calls for
`m.f1` and `m.f2`, the cached module's refcount is 2, not 3: the module is
created with `refs = 1` (consumed by the first binding) and `module_cache_add`
takes no reference of its own, so the claimed invariant
`refs = cached + bindings` fails on the code.
-/
theorem C1_counterexample :
    cachedRefs s1Run "m" = some 2 ∧ cachedRefs s1Run "m" ≠ some 3 := by decide

/--
**C1 (amended).**  After init and two legacy `bind_symbol` calls for `m.f1`
and `m.f2`, the legacy cache holds exactly one entry for `m` and that module's
`refs = 2` — one reference per resolved binding; the cache entry holds no
reference of its own.  After unbinding `m.f1` the refs drop to 1, and
unbinding `m.f2` drops them to zero: the module is destroyed and its cache
entry removed.
-/
theorem C1_legacy_bind_refs :
    legacyOf s1Run = some [("m", 0)] ∧
    cachedRefs s1Run "m" = some 2 ∧
    cachedRefs (unbindStep 1 s1Run) "m" = some 1 ∧
    legacyOf (unbindStep 2 (unbindStep 1 s1Run)) = some [] ∧
    modulesOf (unbindStep 2 (unbindStep 1 s1Run)) = some [] := by decide

/-! ## C3: the reload rollback -/

/--
**C3 (code bug).**  Reloading `m` against a replacement image lacking `f2`,
with bindings `m.f1` (migrated first, successfully) and `m.f2` (fails to
resolve): the `restore:` do-while never advances `mod_sym`, so after its
single pass the migrated binding `m.f1` still points at the new module and
`assert(rlist_empty(&new->funcs_list))` fails — the operation crashes instead
of returning `SymbolNotFound` with all bindings restored to the old module.
-/
theorem C3_rollback_crashes :
    module_reload fsNoF2 reloadState0 "m" = .crash := by decide

/-! ## C5: modern load of an uncached package -/

/--
**C5 (counterexample).**  A modern `module_load` of an uncached package
returns the fresh module with `refs = 1`, not 2: `module_new` returns it with
one reference and `module_cache_add` does not take another.
-/
theorem C5_counterexample :
    loadedRefs (module_load fsOld module_init "m") = some 1 ∧
    loadedRefs (module_load fsOld module_init "m") ≠ some 2 := by decide

/-! ## C7: module_free -/

/--
**C7 (code bug).**  `module_free` crashes on empty caches — `mh_first` on an
empty hash yields `mh_end` and the node dereference is out of bounds — and
when a cache holds several modules it unrefs only the first node before
deleting the table: module 9 of `freeState0` is still alive with its
reference leaked after `module_free` returns.
-/
theorem C7_free_first_only :
    module_free module_init = .crash ∧
    leakedRefs (module_free freeState0) 9 = some 1 := by decide

/-! ## C10: releasing the last reference of an orphan -/

/--
**C10.**  Releasing the last reference to an orphan module deletes the module
but leaves both cache maps and every other module and binding untouched:
`module_unref` performs cache removal only for non-orphan modules.
-/
theorem C10_orphan_unref_frame (s : MCState) (mid : Nat) (m : Module)
    (hm : getModule s mid = some m) (ho : m.hash = none) (hr : m.refs = 1) :
    module_unref s mid = some (removeModule s mid) ∧
    (removeModule s mid).legacyCache = s.legacyCache ∧
    (removeModule s mid).modernCache = s.modernCache ∧
    getModule (removeModule s mid) mid = none ∧
    (∀ k, k ≠ mid → getModule (removeModule s mid) k = getModule s k) ∧
    (removeModule s mid).syms = s.syms := by
  refine ⟨?_, rfl, rfl, ?_, ?_, rfl⟩
  · unfold module_unref
    rw [hm]
    simp [hr, ho]
  · simp [getModule_removeModule]
  · intro k hk
    rw [getModule_removeModule, if_neg (fun hh => hk hh.symm)]

/--
Witness for C10: the orphan module 0 of `orphanState`, replaced in the cache
by its successor module 1, is destroyed without disturbing the successor's
cache entry.
-/
theorem C10_orphan_unref_frame_witness :
    module_unref orphanState 0 = some (removeModule orphanState 0) ∧
    (removeModule orphanState 0).legacyCache = orphanState.legacyCache ∧
    (removeModule orphanState 0).modernCache = orphanState.modernCache ∧
    getModule (removeModule orphanState 0) 0 = none ∧
    (∀ k, k ≠ 0 → getModule (removeModule orphanState 0) k = getModule orphanState k) ∧
    (removeModule orphanState 0).syms = orphanState.syms :=
  C10_orphan_unref_frame orphanState 0
    { package := "m", handle := oldTbl, st := identOld,
      refs := 1, hash := none, funcsList := [] }
    (by decide) rfl rfl

/-! ## C5 (amended): modern load of an uncached package -/

/--
**C5 (amended).**  When modern `module_load` is called for a package with no
cached entry and loading and insertion succeed, the returned module's
reference count is 1 — the caller's reference; the `mod_hash` entry holds no
reference of its own.
-/
theorem C5_fresh_load_refs (fs : FS) (s : MCState) (pkg : String)
    (ident : Identity) (tbl : SymTable)
    (hfs : fs pkg = some (ident, tbl))
    (hmiss : aget s.modernCache pkg = none) :
    ∃ s1, module_load fs s pkg = .ok (s1, s.nextId) ∧
      getModule s1 s.nextId = some { package := pkg, handle := tbl, st := ident,
                                     refs := 1, hash := some false, funcsList := [] } ∧
      aget s1.modernCache pkg = some s.nextId ∧
      s1.legacyCache = s.legacyCache ∧
      s1.syms = s.syms ∧
      (∀ k, k ≠ s.nextId → getModule s1 k = getModule s k) := by
  have hfind : module_cache_find s false pkg = none := by
    simp [module_cache_find, hmiss]
  have hrun : module_load fs s pkg =
      .ok (module_cache_add
        { s with
          modules := (s.nextId,
            { package := pkg, handle := tbl, st := ident, refs := 1,
              hash := some false, funcsList := [] }) :: s.modules,
          nextId := s.nextId + 1 } false pkg s.nextId, s.nextId) := by
    simp only [module_load, hfs, hfind, module_new_ok fs s false pkg ident tbl hfs]
  refine ⟨_, hrun, ?_, ?_, ?_, ?_, ?_⟩
  · simp [module_cache_add, getModule]
  · simp [module_cache_add]
  · simp [module_cache_add]
  · simp [module_cache_add]
  · intro k hk
    have hne2 : ¬ s.nextId = k := fun h => hk h.symm
    simp [module_cache_add, getModule, hne2]

/-- Witness for C5: a fresh modern load of `m` from the empty state. -/
theorem C5_fresh_load_refs_witness :
    ∃ s1, module_load fsOld module_init "m" = .ok (s1, module_init.nextId) ∧
      getModule s1 module_init.nextId =
        some { package := "m", handle := oldTbl, st := identOld,
               refs := 1, hash := some false, funcsList := [] } ∧
      aget s1.modernCache "m" = some module_init.nextId ∧
      s1.legacyCache = module_init.legacyCache ∧
      s1.syms = module_init.syms ∧
      (∀ k, k ≠ module_init.nextId → getModule s1 k = getModule module_init k) :=
  C5_fresh_load_refs fsOld module_init "m" identOld oldTbl (by decide) (by decide)

/-! ## C9: lazy resolution fails on a missing symbol -/

/--
**C9.**  During lazy resolution of a legacy binding whose symbol is absent
from the image, the resolver undoes the reference it just took and fails with
`SymbolNotFound`; the binding's `addr` stays unresolved, it is linked into no
module's binding list, and the caches keep their shape.  Covers both the
cache-hit path (refcount restored to its old value) and the cache-miss path
(the freshly loaded module is destroyed again and its cache entry removed).
-/
theorem C9_resolve_miss_unref (fs : FS) (s : MCState) (sid : Nat) (nm : String)
    (symN pkgN : String)
    (hsym : getSym s sid = some { name := nm, module := none, addr := none })
    (hsplit : func_split_name nm = { sym := symN, package := pkgN }) :
    (∀ cid cached, aget s.legacyCache pkgN = some cid →
       getModule s cid = some cached → 1 ≤ cached.refs →
       aget cached.handle symN = none →
       ∃ s4, module_sym_load fs s sid true = .err .SymbolNotFound s4 ∧
         getModule s4 cid = some cached ∧
         getSym s4 sid = some { name := nm, module := some cid, addr := none } ∧
         (∀ mid, mid ≠ cid → getModule s4 mid = getModule s mid) ∧
         s4.legacyCache = s.legacyCache ∧ s4.modernCache = s.modernCache) ∧
    (∀ ident tbl, aget s.legacyCache pkgN = none →
       fs pkgN = some (ident, tbl) →
       aget tbl symN = none →
       ∃ s4, module_sym_load fs s sid true = .err .SymbolNotFound s4 ∧
         getModule s4 s.nextId = none ∧
         s4.legacyCache = s.legacyCache ∧ s4.modernCache = s.modernCache ∧
         (∀ mid, mid ≠ s.nextId → getModule s4 mid = getModule s mid) ∧
         getSym s4 sid = some { name := nm, module := some s.nextId, addr := none }) := by
  constructor
  · intro cid cached hfind hcached hrefs hressym
    have hfind2 : module_cache_find s true pkgN = some cid := by
      simp [module_cache_find, hfind]
    have hm3 : getModule (setSym (setModule s cid { cached with refs := cached.refs + 1 })
        sid { name := nm, module := some cid, addr := none }) cid =
        some { cached with refs := cached.refs + 1 } := by
      rw [getModule_setSym, getModule_setModule_self]
    have hrun : module_sym_load fs s sid true = .err .SymbolNotFound
        (setModule (setSym (setModule s cid { cached with refs := cached.refs + 1 })
          sid { name := nm, module := some cid, addr := none }) cid cached) := by
      simp only [module_sym_load, hsym, hsplit, hfind2, if_true,
                 module_ref_some s cid cached hcached, hm3, module_sym, hressym,
                 module_unref_dec _ _ _ hm3 (show 2 ≤ cached.refs + 1 by omega)]
      rfl
    refine ⟨_, hrun, ?_, ?_, ?_, rfl, rfl⟩
    · rw [getModule_setModule_self]
    · rw [getSym_setModule, getSym_setSym_self]
    · intro mid hmid
      rw [getModule_setModule_ne _ _ _ _ (fun h => hmid h.symm), getModule_setSym,
          getModule_setModule_ne _ _ _ _ (fun h => hmid h.symm)]
  · intro ident tbl hfind hfs hressym
    have hfind2 : module_cache_find s true pkgN = none := by
      simp [module_cache_find, hfind]
    have hm3 : getModule (setSym (module_cache_add
        { s with
          modules := (s.nextId,
            { package := pkgN, handle := tbl, st := ident, refs := 1,
              hash := some true, funcsList := [] }) :: s.modules,
          nextId := s.nextId + 1 } true pkgN s.nextId)
          sid { name := nm, module := some s.nextId, addr := none }) s.nextId =
        some { package := pkgN, handle := tbl, st := ident, refs := 1,
               hash := some true, funcsList := [] } := by
      simp [module_cache_add, getModule]
    have hrun : module_sym_load fs s sid true = .err .SymbolNotFound
        (removeModule (module_cache_del (setSym (module_cache_add
          { s with
            modules := (s.nextId,
              { package := pkgN, handle := tbl, st := ident, refs := 1,
                hash := some true, funcsList := [] }) :: s.modules,
            nextId := s.nextId + 1 } true pkgN s.nextId)
            sid { name := nm, module := some s.nextId, addr := none }) true pkgN)
          s.nextId) := by
      simp only [module_sym_load, hsym, hsplit, hfind2, hfs, if_true,
                 module_new_ok fs s true pkgN ident tbl hfs,
                 module_sym, hm3, hressym,
                 module_unref_last_cached _ _ _ true hm3 rfl rfl]
    refine ⟨_, hrun, ?_, ?_, rfl, ?_, ?_⟩
    · simp [getModule, removeModule, aget_adel]
    · have h1 : adel s.legacyCache pkgN = s.legacyCache := adel_of_aget_none _ _ hfind
      simp [module_cache_del, module_cache_add, aset, adel, h1]
    · intro mid hmid
      have hne2 : ¬ s.nextId = mid := fun h => hmid h.symm
      simp [getModule, removeModule, module_cache_del, module_cache_add,
            aget_adel, hne2]
    · simp [module_cache_del, getSym_setSym_self]

/-- Witness for C9, cache-hit branch: `m.f9` is not exported by `m`'s image. -/
theorem C9_resolve_miss_unref_witness :
    ∃ s4, module_sym_load fsOld reloadState9 3 true = .err .SymbolNotFound s4 ∧
      getModule s4 0 = some { package := "m", handle := oldTbl, st := identOld,
                              refs := 2, hash := some true, funcsList := [1, 2] } ∧
      getSym s4 3 = some { name := "m.f9", module := some 0, addr := none } ∧
      (∀ mid, mid ≠ 0 → getModule s4 mid = getModule reloadState9 mid) ∧
      s4.legacyCache = reloadState9.legacyCache ∧
      s4.modernCache = reloadState9.modernCache :=
  (C9_resolve_miss_unref fsOld reloadState9 3 "m.f9" "f9" "m" (by decide) (by decide)).1
    0 { package := "m", handle := oldTbl, st := identOld,
        refs := 2, hash := some true, funcsList := [1, 2] }
    (by decide) (by decide) (by decide) (by decide)

/-! ## C4: modern load of a cached package -/

/--
**C4.**  Modern `module_load` on a cached package compares the on-disk stat
identity (dev, ino, size, mtime) with the cached module's captured identity:
if all four are equal it bumps the cached module's refcount and returns the
same module; otherwise it loads a fresh module, replaces the `mod_hash` entry
in place, orphans the previously cached module (without unreferencing it),
and returns the fresh module.
-/
theorem C4_load_identity_check (fs : FS) (s : MCState) (pkg : String)
    (curId : Identity) (tbl : SymTable) (cid : Nat) (cached : Module)
    (hfs : fs pkg = some (curId, tbl))
    (hfind : aget s.modernCache pkg = some cid)
    (hcached : getModule s cid = some cached)
    (hfresh : getModule s s.nextId = none) :
    ((cached.st.dev = curId.dev ∧ cached.st.ino = curId.ino ∧
      cached.st.size = curId.size ∧ cached.st.mtime = curId.mtime) →
      module_load fs s pkg =
        .ok (setModule s cid { cached with refs := cached.refs + 1 }, cid)) ∧
    (¬(cached.st.dev = curId.dev ∧ cached.st.ino = curId.ino ∧
       cached.st.size = curId.size ∧ cached.st.mtime = curId.mtime) →
      ∃ s1, module_load fs s pkg = .ok (s1, s.nextId) ∧
        getModule s1 s.nextId =
          some { package := pkg, handle := tbl, st := curId,
                 refs := 1, hash := some false, funcsList := [] } ∧
        getModule s1 cid = some { cached with hash := none } ∧
        aget s1.modernCache pkg = some s.nextId ∧
        (∀ q, q ≠ pkg → aget s1.modernCache q = aget s.modernCache q) ∧
        s1.legacyCache = s.legacyCache ∧ s1.syms = s.syms ∧
        (∀ k, k ≠ cid → k ≠ s.nextId → getModule s1 k = getModule s k)) := by
  have hfind2 : module_cache_find s false pkg = some cid := by
    simp [module_cache_find, hfind]
  have hne : cid ≠ s.nextId := by
    intro h
    rw [h, hfresh] at hcached
    exact Option.noConfusion hcached
  have hnid : s.nextId ≠ cid := fun h => hne h.symm
  constructor
  · intro hid
    simp only [module_load, hfs, hfind2, hcached, if_pos hid, module_ref]
  · intro hid
    have hgetB : getModule (setCache
        { s with
          modules := (s.nextId,
            { package := pkg, handle := tbl, st := curId, refs := 1,
              hash := some false, funcsList := [] }) :: s.modules,
          nextId := s.nextId + 1 } false
          (aset s.modernCache pkg s.nextId)) cid = some cached := by
      simp only [getModule_setCache]
      simp [getModule, hnid]
      exact hcached
    have hupd : module_cache_update
        { s with
          modules := (s.nextId,
            { package := pkg, handle := tbl, st := curId, refs := 1,
              hash := some false, funcsList := [] }) :: s.modules,
          nextId := s.nextId + 1 } false pkg s.nextId =
        some (setCache
        { s with
          modules := (s.nextId,
            { package := pkg, handle := tbl, st := curId, refs := 1,
              hash := some false, funcsList := [] }) :: s.modules,
          nextId := s.nextId + 1 } false
          (aset s.modernCache pkg s.nextId)) := by
      simp [module_cache_update, hfind]
    have hrun : module_load fs s pkg = .ok (setModule (setCache
        { s with
          modules := (s.nextId,
            { package := pkg, handle := tbl, st := curId, refs := 1,
              hash := some false, funcsList := [] }) :: s.modules,
          nextId := s.nextId + 1 } false
          (aset s.modernCache pkg s.nextId)) cid { cached with hash := none },
        s.nextId) := by
      simp only [module_load, hfs, hfind2, hcached, if_neg hid,
                 module_new_ok fs s false pkg curId tbl hfs,
                 hupd, module_set_orphan_some _ _ _ hgetB]
    refine ⟨_, hrun, ?_, ?_, ?_, ?_, ?_, ?_, ?_⟩
    · rw [getModule_setModule_ne _ _ _ _ hne, getModule_setCache]
      simp [getModule]
    · rw [getModule_setModule_self]
    · simp
    · intro q hq
      simp [aget_aset_ne _ _ _ _ (fun h => hq h.symm)]
    · simp
    · simp
    · intro k hk1 hk2
      rw [getModule_setModule_ne _ _ _ _ (fun h => hk1 h.symm), getModule_setCache]
      have hne3 : ¬ s.nextId = k := fun h => hk2 h.symm
      simp [getModule, hne3]

/--
Witness for C4: the file of `m` changed on disk (`identNew` vs the cached
`identOld`), so the reload-in-place branch fires.
-/
theorem C4_load_identity_check_witness :
    ((({ package := "m", handle := oldTbl, st := identOld, refs := 1,
         hash := some false, funcsList := [] } : Module).st.dev = identNew.dev ∧
      ({ package := "m", handle := oldTbl, st := identOld, refs := 1,
         hash := some false, funcsList := [] } : Module).st.ino = identNew.ino ∧
      ({ package := "m", handle := oldTbl, st := identOld, refs := 1,
         hash := some false, funcsList := [] } : Module).st.size = identNew.size ∧
      ({ package := "m", handle := oldTbl, st := identOld, refs := 1,
         hash := some false, funcsList := [] } : Module).st.mtime = identNew.mtime) →
      module_load fsNew modernState0 "m" =
        .ok (setModule modernState0 0
          { ({ package := "m", handle := oldTbl, st := identOld, refs := 1,
               hash := some false, funcsList := [] } : Module) with refs :=
            ({ package := "m", handle := oldTbl, st := identOld, refs := 1,
               hash := some false, funcsList := [] } : Module).refs + 1 }, 0)) ∧
    (¬(({ package := "m", handle := oldTbl, st := identOld, refs := 1,
          hash := some false, funcsList := [] } : Module).st.dev = identNew.dev ∧
       ({ package := "m", handle := oldTbl, st := identOld, refs := 1,
          hash := some false, funcsList := [] } : Module).st.ino = identNew.ino ∧
       ({ package := "m", handle := oldTbl, st := identOld, refs := 1,
          hash := some false, funcsList := [] } : Module).st.size = identNew.size ∧
       ({ package := "m", handle := oldTbl, st := identOld, refs := 1,
          hash := some false, funcsList := [] } : Module).st.mtime = identNew.mtime) →
      ∃ s1, module_load fsNew modernState0 "m" = .ok (s1, modernState0.nextId) ∧
        getModule s1 modernState0.nextId =
          some { package := "m", handle := newTbl, st := identNew,
                 refs := 1, hash := some false, funcsList := [] } ∧
        getModule s1 0 = some { ({ package := "m", handle := oldTbl, st := identOld,
                                   refs := 1, hash := some false,
                                   funcsList := [] } : Module) with hash := none } ∧
        aget s1.modernCache "m" = some modernState0.nextId ∧
        (∀ q, q ≠ "m" → aget s1.modernCache q = aget modernState0.modernCache q) ∧
        s1.legacyCache = modernState0.legacyCache ∧
        s1.syms = modernState0.syms ∧
        (∀ k, k ≠ 0 → k ≠ modernState0.nextId → getModule s1 k = getModule modernState0 k)) :=
  C4_load_identity_check fsNew modernState0 "m" identNew newTbl 0
    { package := "m", handle := oldTbl, st := identOld, refs := 1,
      hash := some false, funcsList := [] }
    (by decide) (by decide) (by decide) (by decide)

/-! ## The reload migration loop -/

/--
One successful iteration of the migration loop: resolve in `new`, retarget the
binding, move its list node, `ref(new)`, `unref(old)`.
-/
theorem reload_loop_step (oldId newId sid : Nat) (rest : List Nat) (s : MCState)
    (msym : ModuleSym) (oldM newM : Module) (a : Nat)
    (hsym : getSym s sid = some msym)
    (hold : getModule s oldId = some oldM)
    (hnew : getModule s newId = some newM)
    (hne : oldId ≠ newId)
    (hres : aget newM.handle (func_split_name msym.name).sym = some a)
    (hrefs2 : 2 ≤ oldM.refs) :
    reload_loop oldId newId (sid :: rest) s =
      reload_loop oldId newId rest
        (setModule (setModule (setModule (setSym s sid
            { name := msym.name, module := some newId, addr := some a })
          oldId { oldM with funcsList := oldM.funcsList.erase sid })
          newId { newM with funcsList := sid :: newM.funcsList, refs := newM.refs + 1 })
          oldId { oldM with funcsList := oldM.funcsList.erase sid,
                            refs := oldM.refs - 1 }) := by
  have h1 : getModule (setSym s sid
      { name := msym.name, module := some newId, addr := some a }) oldId =
      some oldM := by
    rw [getModule_setSym]; exact hold
  have h2 : getModule (setModule (setSym s sid
      { name := msym.name, module := some newId, addr := some a })
      oldId { oldM with funcsList := oldM.funcsList.erase sid }) newId =
      some newM := by
    rw [getModule_setModule_ne _ _ _ _ hne, getModule_setSym]; exact hnew
  have h3 : getModule (setModule (setModule (setSym s sid
      { name := msym.name, module := some newId, addr := some a })
      oldId { oldM with funcsList := oldM.funcsList.erase sid })
      newId { newM with funcsList := sid :: newM.funcsList }) newId =
      some { newM with funcsList := sid :: newM.funcsList } := by
    rw [getModule_setModule_self]
  have h4 : getModule (setModule (setModule (setSym s sid
      { name := msym.name, module := some newId, addr := some a })
      oldId { oldM with funcsList := oldM.funcsList.erase sid })
      newId { newM with funcsList := sid :: newM.funcsList, refs := newM.refs + 1 })
      oldId = some { oldM with funcsList := oldM.funcsList.erase sid } := by
    rw [getModule_setModule_ne _ _ _ _ (fun h => hne h.symm), getModule_setModule_self]
  simp only [reload_loop, hsym, hnew, module_sym, hres, h1, h2,
             module_ref_some _ _ _ h3,
             module_unref_dec _ _ _ h4 (show 2 ≤ oldM.refs from hrefs2),
             setModule_setModule]

/--
The migration loop retargets every pending binding to the new module, empties
the old module's binding list while transferring the matching references, and
touches nothing else, provided every symbol resolves in the new image.
-/
theorem reload_loop_spec (oldId newId : Nat) (hne : oldId ≠ newId)
    (newTbl : SymTable) (symOf : Nat → ModuleSym) (addrOf : Nat → Nat) :
    ∀ (todo : List Nat) (s : MCState) (oldM newM : Module) (c : Nat),
      todo.Nodup →
      getModule s oldId = some oldM →
      getModule s newId = some newM →
      newM.handle = newTbl →
      oldM.funcsList = todo →
      oldM.refs = todo.length + c →
      1 ≤ c →
      (∀ sid, sid ∈ todo → getSym s sid = some (symOf sid)) →
      (∀ sid, sid ∈ todo →
        aget newTbl (func_split_name (symOf sid).name).sym = some (addrOf sid)) →
      ∃ s2, reload_loop oldId newId todo s = .ok s2 ∧
        getModule s2 oldId = some { oldM with funcsList := [], refs := c } ∧
        getModule s2 newId =
          some { newM with funcsList := todo.reverse ++ newM.funcsList,
                           refs := newM.refs + todo.length } ∧
        (∀ sid, sid ∈ todo → getSym s2 sid =
          some { name := (symOf sid).name, module := some newId,
                 addr := some (addrOf sid) }) ∧
        (∀ sid, sid ∉ todo → getSym s2 sid = getSym s sid) ∧
        (∀ mid, mid ≠ oldId → mid ≠ newId → getModule s2 mid = getModule s mid) ∧
        s2.legacyCache = s.legacyCache ∧ s2.modernCache = s.modernCache ∧
        s2.nextId = s.nextId := by
  intro todo
  induction todo with
  | nil =>
    intro s oldM newM c _ hold hnew _ hfl hrefs _ _ _
    refine ⟨s, rfl, ?_, ?_, ?_, fun _ _ => rfl, fun _ _ _ => rfl, rfl, rfl, rfl⟩
    · rw [hold]
      cases oldM
      simp only [List.length_nil, Nat.zero_add] at hfl hrefs
      simp [hfl, hrefs]
    · rw [hnew]
      cases newM
      simp
    · intro sid h
      cases h
  | cons sid rest ih =>
    intro s oldM newM c hnd hold hnew hhandle hfl hrefs hc hsyms hres
    have hsid : sid ∈ sid :: rest := List.mem_cons_self sid rest
    have hnotin : sid ∉ rest := (List.nodup_cons.mp hnd).1
    have hstep := reload_loop_step oldId newId sid rest s (symOf sid) oldM newM
      (addrOf sid) (hsyms sid hsid) hold hnew hne
      (by rw [hhandle]; exact hres sid hsid)
      (by rw [hrefs]; simp only [List.length_cons]; omega)
    rw [hfl, List.erase_cons_head] at hstep
    have harith : oldM.refs - 1 = rest.length + c := by
      rw [hrefs]; simp only [List.length_cons]; omega
    rw [harith] at hstep
    obtain ⟨s2, hrun, hgo, hgn, hsy1, hsy2, hmf, hlc, hmc, hni⟩ :=
      ih (setModule (setModule (setModule (setSym s sid
            { name := (symOf sid).name, module := some newId,
              addr := some (addrOf sid) })
          oldId { oldM with funcsList := rest })
          newId { newM with funcsList := sid :: newM.funcsList,
                            refs := newM.refs + 1 })
          oldId { oldM with funcsList := rest, refs := rest.length + c })
        { oldM with funcsList := rest, refs := rest.length + c }
        { newM with funcsList := sid :: newM.funcsList, refs := newM.refs + 1 } c
        (List.nodup_cons.mp hnd).2
        (getModule_setModule_self _ _ _)
        (by rw [getModule_setModule_ne _ _ _ _ hne, getModule_setModule_self])
        hhandle rfl rfl hc
        (by
          intro sid2 hmem
          have hne2 : sid ≠ sid2 := fun h => hnotin (h ▸ hmem)
          rw [getSym_setModule, getSym_setModule, getSym_setModule,
              getSym_setSym_ne _ _ _ _ hne2]
          exact hsyms sid2 (List.mem_cons_of_mem sid hmem))
        (fun sid2 hmem => hres sid2 (List.mem_cons_of_mem sid hmem))
    refine ⟨s2, ?_, ?_, ?_, ?_, ?_, ?_, ?_, ?_, ?_⟩
    · rw [hstep]; exact hrun
    · exact hgo
    · rw [hgn]
      simp only [Option.some.injEq, Module.mk.injEq, eq_self_iff_true, true_and]
      constructor
      · omega
      · simp
    · intro sid2 hmem
      rcases List.mem_cons.mp hmem with h | h
      · subst h
        rw [hsy2 sid2 hnotin, getSym_setModule, getSym_setModule, getSym_setModule,
            getSym_setSym_self]
      · exact hsy1 sid2 h
    · intro sid2 hmem
      have hmem1 : sid2 ∉ rest := fun h => hmem (List.mem_cons_of_mem sid h)
      have hne2 : sid ≠ sid2 := fun h => hmem (h ▸ List.mem_cons_self sid rest)
      rw [hsy2 sid2 hmem1, getSym_setModule, getSym_setModule, getSym_setModule,
          getSym_setSym_ne _ _ _ _ hne2]
    · intro mid h1 h2
      rw [hmf mid h1 h2,
          getModule_setModule_ne _ _ _ _ (fun h => h1 h.symm),
          getModule_setModule_ne _ _ _ _ (fun h => h2 h.symm),
          getModule_setModule_ne _ _ _ _ (fun h => h1 h.symm),
          getModule_setSym]
    · rw [hlc]; rfl
    · rw [hmc]; rfl
    · rw [hni]; rfl

/--
A successful `module_reload`: every pre-existing binding is retargeted to the
fresh module (new address, new list node, new owner), `box_schema_hash` maps
the package to the fresh module, and the old module is orphaned and unrefed —
it survives, orphaned, exactly when `p ≥ 1` transient call-time pins remain.
-/
theorem module_reload_spec (fs : FS) (s : MCState) (pkg : String) (oldId : Nat)
    (oldM : Module) (ident : Identity) (newTbl : SymTable)
    (symOf : Nat → ModuleSym) (addrOf : Nat → Nat) (p : Nat)
    (hfind : aget s.legacyCache pkg = some oldId)
    (hfs : fs pkg = some (ident, newTbl))
    (hold : getModule s oldId = some oldM)
    (hfresh : getModule s s.nextId = none)
    (hnd : oldM.funcsList.Nodup)
    (hnonempty : oldM.funcsList ≠ [])
    (hrefs : oldM.refs = oldM.funcsList.length + p)
    (hsyms : ∀ sid, sid ∈ oldM.funcsList → getSym s sid = some (symOf sid))
    (hres : ∀ sid, sid ∈ oldM.funcsList →
      aget newTbl (func_split_name (symOf sid).name).sym = some (addrOf sid)) :
    ∃ s2, module_reload fs s pkg = .ok s2 ∧
      aget s2.legacyCache pkg = some s.nextId ∧
      (∀ q, q ≠ pkg → aget s2.legacyCache q = aget s.legacyCache q) ∧
      s2.modernCache = s.modernCache ∧
      getModule s2 s.nextId =
        some { package := pkg, handle := newTbl, st := ident,
               refs := oldM.funcsList.length, hash := some true,
               funcsList := oldM.funcsList.reverse } ∧
      (∀ sid, sid ∈ oldM.funcsList → getSym s2 sid =
        some { name := (symOf sid).name, module := some s.nextId,
               addr := some (addrOf sid) }) ∧
      (∀ sid, sid ∉ oldM.funcsList → getSym s2 sid = getSym s sid) ∧
      (getModule s2 oldId = if p = 0 then none
        else some { oldM with funcsList := [], refs := p, hash := none }) ∧
      (∀ mid, mid ≠ oldId → mid ≠ s.nextId → getModule s2 mid = getModule s mid) := by
  have hne : oldId ≠ s.nextId := by
    intro h
    rw [h, hfresh] at hold
    exact Option.noConfusion hold
  have hfind2 : module_cache_find s true pkg = some oldId := by
    simp [module_cache_find, hfind]
  have hlen1 : 1 ≤ oldM.funcsList.length := by
    cases hl : oldM.funcsList with
    | nil => exact absurd hl hnonempty
    | cons a l => simp [List.length_cons]
  -- state after module_new and the extra ref on old
  have hgetOA : getModule
      { s with
        modules := (s.nextId,
          { package := pkg, handle := newTbl, st := ident, refs := 1,
            hash := some true, funcsList := [] }) :: s.modules,
        nextId := s.nextId + 1 } oldId = some oldM := by
    have hne2 : ¬ s.nextId = oldId := fun h => hne h.symm
    simp only [getModule, aget_cons]
    rw [if_neg hne2]
    exact hold
  obtain ⟨s3, hrun3, hgo3, hgn3, hsy31, hsy32, hmf3, hlc3, hmc3, hni3⟩ :=
    reload_loop_spec oldId s.nextId hne newTbl symOf addrOf oldM.funcsList
      (setModule
        { s with
          modules := (s.nextId,
            { package := pkg, handle := newTbl, st := ident, refs := 1,
              hash := some true, funcsList := [] }) :: s.modules,
          nextId := s.nextId + 1 } oldId { oldM with refs := oldM.refs + 1 })
      { oldM with refs := oldM.refs + 1 }
      { package := pkg, handle := newTbl, st := ident, refs := 1,
        hash := some true, funcsList := [] }
      (p + 1) hnd
      (getModule_setModule_self _ _ _)
      (by
        rw [getModule_setModule_ne _ _ _ _ hne]
        simp [getModule])
      rfl rfl
      (by simp only; omega)
      (Nat.le_add_left 1 p)
      (fun sid h => hsyms sid h)
      hres
  have hlcs3 : s3.legacyCache = s.legacyCache := hlc3
  have hmcs3 : s3.modernCache = s.modernCache := hmc3
  have hnis3 : s3.nextId = s.nextId + 1 := hni3
  have hupd : module_cache_update s3 true pkg s.nextId =
      some (setCache s3 true (aset (getCache s3 true) pkg s.nextId)) :=
    module_cache_update_found s3 true pkg s.nextId oldId
      (by rw [getCache_true, hlcs3]; exact hfind)
  have hgetO4 : getModule (setCache s3 true (aset (getCache s3 true) pkg s.nextId))
      oldId = some { oldM with funcsList := [], refs := p + 1 } := by
    rw [getModule_setCache]
    exact hgo3
  have horph : module_set_orphan
      (setCache s3 true (aset (getCache s3 true) pkg s.nextId)) oldId =
      some (setModule (setCache s3 true (aset (getCache s3 true) pkg s.nextId))
        oldId { oldM with funcsList := [], refs := p + 1, hash := none }) :=
    module_set_orphan_some _ _ _ hgetO4
  have hgetO5 : getModule (setModule
      (setCache s3 true (aset (getCache s3 true) pkg s.nextId))
      oldId { oldM with funcsList := [], refs := p + 1, hash := none }) oldId =
      some { oldM with funcsList := [], refs := p + 1, hash := none } :=
    getModule_setModule_self _ _ _
  have hgetN3 : getModule s3 s.nextId =
      some { package := pkg, handle := newTbl, st := ident,
             refs := 1 + oldM.funcsList.length, hash := some true,
             funcsList := oldM.funcsList.reverse ++ [] } := hgn3
  by_cases hp : p = 0
  · subst hp
    have hunrefO : module_unref (setModule
        (setCache s3 true (aset (getCache s3 true) pkg s.nextId))
        oldId { oldM with funcsList := [], refs := 1, hash := none }) oldId =
        some (removeModule (setModule
          (setCache s3 true (aset (getCache s3 true) pkg s.nextId))
          oldId { oldM with funcsList := [], refs := 1, hash := none }) oldId) :=
      module_unref_last_orphan _ _ _ hgetO5 rfl rfl
    have hgetN6 : getModule (removeModule (setModule
        (setCache s3 true (aset (getCache s3 true) pkg s.nextId))
        oldId { oldM with funcsList := [], refs := 1, hash := none }) oldId)
        s.nextId =
        some { package := pkg, handle := newTbl, st := ident,
               refs := 1 + oldM.funcsList.length, hash := some true,
               funcsList := oldM.funcsList.reverse ++ [] } := by
      rw [getModule_removeModule, if_neg hne, getModule_setModule_ne _ _ _ _ hne,
          getModule_setCache]
      exact hgetN3
    have hunrefN : module_unref (removeModule (setModule
        (setCache s3 true (aset (getCache s3 true) pkg s.nextId))
        oldId { oldM with funcsList := [], refs := 1, hash := none }) oldId)
        s.nextId =
        some (setModule (removeModule (setModule
          (setCache s3 true (aset (getCache s3 true) pkg s.nextId))
          oldId { oldM with funcsList := [], refs := 1, hash := none }) oldId)
          s.nextId
          { package := pkg, handle := newTbl, st := ident,
            refs := 1 + oldM.funcsList.length - 1, hash := some true,
            funcsList := oldM.funcsList.reverse ++ [] }) :=
      module_unref_dec _ _ _ hgetN6 (by simp only; omega)
    have hrunAll : module_reload fs s pkg = .ok (setModule (removeModule (setModule
        (setCache s3 true (aset (getCache s3 true) pkg s.nextId))
        oldId { oldM with funcsList := [], refs := 1, hash := none }) oldId)
        s.nextId
        { package := pkg, handle := newTbl, st := ident,
          refs := 1 + oldM.funcsList.length - 1, hash := some true,
          funcsList := oldM.funcsList.reverse ++ [] }) := by
      simp only [module_reload, hfind2, hfs,
                 module_new_ok fs s true pkg ident newTbl hfs,
                 module_ref_some _ _ _ hgetOA, getModule_setModule_self,
                 hrun3, hupd, horph, hunrefO, hunrefN]
    refine ⟨_, hrunAll, ?_, ?_, ?_, ?_, ?_, ?_, ?_, ?_⟩
    · simp [getCache_true, hlcs3]
    · intro q hq
      have hq2 : pkg ≠ q := fun h => hq h.symm
      simp [getCache_true, hlcs3, aget_aset_ne _ _ _ _ hq2]
    · simp [hmcs3]
    · rw [getModule_setModule_self]
      simp only [Option.some.injEq, Module.mk.injEq, eq_self_iff_true, true_and]
      constructor
      · omega
      · simp
    · intro sid hmem
      rw [getSym_setModule, getSym_removeModule, getSym_setModule, getSym_setCache]
      exact hsy31 sid hmem
    · intro sid hmem
      rw [getSym_setModule, getSym_removeModule, getSym_setModule, getSym_setCache]
      exact hsy32 sid hmem
    · rw [if_pos rfl, getModule_setModule_ne _ _ _ _ (fun h => hne h.symm),
          getModule_removeModule, if_pos rfl]
    · intro mid h1 h2
      rw [getModule_setModule_ne _ _ _ _ (fun h => h2 h.symm),
          getModule_removeModule, if_neg (fun h => h1 h.symm),
          getModule_setModule_ne _ _ _ _ (fun h => h1 h.symm),
          getModule_setCache, hmf3 mid h1 h2,
          getModule_setModule_ne _ _ _ _ (fun h => h1 h.symm)]
      have hne3 : ¬ s.nextId = mid := fun h => h2 h.symm
      simp [getModule, hne3]
  · have hunrefO : module_unref (setModule
        (setCache s3 true (aset (getCache s3 true) pkg s.nextId))
        oldId { oldM with funcsList := [], refs := p + 1, hash := none }) oldId =
        some (setModule (setModule
          (setCache s3 true (aset (getCache s3 true) pkg s.nextId))
          oldId { oldM with funcsList := [], refs := p + 1, hash := none }) oldId
          { oldM with funcsList := [], refs := p + 1 - 1, hash := none }) :=
      module_unref_dec _ _ _ hgetO5 (by simp only; omega)
    rw [setModule_setModule] at hunrefO
    have hgetN6 : getModule (setModule
        (setCache s3 true (aset (getCache s3 true) pkg s.nextId))
        oldId { oldM with funcsList := [], refs := p + 1 - 1, hash := none })
        s.nextId =
        some { package := pkg, handle := newTbl, st := ident,
               refs := 1 + oldM.funcsList.length, hash := some true,
               funcsList := oldM.funcsList.reverse ++ [] } := by
      rw [getModule_setModule_ne _ _ _ _ hne, getModule_setCache]
      exact hgetN3
    have hunrefN : module_unref (setModule
        (setCache s3 true (aset (getCache s3 true) pkg s.nextId))
        oldId { oldM with funcsList := [], refs := p + 1 - 1, hash := none })
        s.nextId =
        some (setModule (setModule
          (setCache s3 true (aset (getCache s3 true) pkg s.nextId))
          oldId { oldM with funcsList := [], refs := p + 1 - 1, hash := none })
          s.nextId
          { package := pkg, handle := newTbl, st := ident,
            refs := 1 + oldM.funcsList.length - 1, hash := some true,
            funcsList := oldM.funcsList.reverse ++ [] }) :=
      module_unref_dec _ _ _ hgetN6 (by simp only; omega)
    have hrunAll : module_reload fs s pkg = .ok (setModule (setModule
        (setCache s3 true (aset (getCache s3 true) pkg s.nextId))
        oldId { oldM with funcsList := [], refs := p + 1 - 1, hash := none })
        s.nextId
        { package := pkg, handle := newTbl, st := ident,
          refs := 1 + oldM.funcsList.length - 1, hash := some true,
          funcsList := oldM.funcsList.reverse ++ [] }) := by
      simp only [module_reload, hfind2, hfs,
                 module_new_ok fs s true pkg ident newTbl hfs,
                 module_ref_some _ _ _ hgetOA, getModule_setModule_self,
                 hrun3, hupd, horph, hunrefO, hunrefN]
    refine ⟨_, hrunAll, ?_, ?_, ?_, ?_, ?_, ?_, ?_, ?_⟩
    · simp [getCache_true, hlcs3]
    · intro q hq
      have hq2 : pkg ≠ q := fun h => hq h.symm
      simp [getCache_true, hlcs3, aget_aset_ne _ _ _ _ hq2]
    · simp [hmcs3]
    · rw [getModule_setModule_self]
      simp only [Option.some.injEq, Module.mk.injEq, eq_self_iff_true, true_and]
      constructor
      · omega
      · simp
    · intro sid hmem
      rw [getSym_setModule, getSym_setModule, getSym_setCache]
      exact hsy31 sid hmem
    · intro sid hmem
      rw [getSym_setModule, getSym_setModule, getSym_setCache]
      exact hsy32 sid hmem
    · rw [if_neg hp, getModule_setModule_ne _ _ _ _ (fun h => hne h.symm),
          getModule_setModule_self]
      simp only [Option.some.injEq, Module.mk.injEq, eq_self_iff_true, true_and,
                 and_true]
      omega
    · intro mid h1 h2
      rw [getModule_setModule_ne _ _ _ _ (fun h => h2 h.symm),
          getModule_setModule_ne _ _ _ _ (fun h => h1 h.symm),
          getModule_setCache, hmf3 mid h1 h2,
          getModule_setModule_ne _ _ _ _ (fun h => h1 h.symm)]
      have hne3 : ¬ s.nextId = mid := fun h => h2 h.symm
      simp [getModule, hne3]

/--
**C2.**  For every package cached in `box_schema_hash` with bindings attached
to the old module, a successful `reload_legacy` retargets every pre-existing
binding: each binding's `module` becomes the new module, its `addr` is the
symbol's address in the new image, its list node moves to the new module's
`funcs_list`, the cache maps the package to the new module, and the old
module is orphaned and unrefed — it is destroyed unless `p ≥ 1` transient
call-time pins keep it alive.
-/
theorem C2_reload_retargets (fs : FS) (s : MCState) (pkg : String) (oldId : Nat)
    (oldM : Module) (ident : Identity) (newTbl : SymTable)
    (symOf : Nat → ModuleSym) (addrOf : Nat → Nat) (p : Nat)
    (hfind : aget s.legacyCache pkg = some oldId)
    (hfs : fs pkg = some (ident, newTbl))
    (hold : getModule s oldId = some oldM)
    (hfresh : getModule s s.nextId = none)
    (hnd : oldM.funcsList.Nodup)
    (hnonempty : oldM.funcsList ≠ [])
    (hrefs : oldM.refs = oldM.funcsList.length + p)
    (hsyms : ∀ sid, sid ∈ oldM.funcsList → getSym s sid = some (symOf sid))
    (hres : ∀ sid, sid ∈ oldM.funcsList →
      aget newTbl (func_split_name (symOf sid).name).sym = some (addrOf sid)) :
    ∃ s2, module_reload fs s pkg = .ok s2 ∧
      aget s2.legacyCache pkg = some s.nextId ∧
      (∀ q, q ≠ pkg → aget s2.legacyCache q = aget s.legacyCache q) ∧
      s2.modernCache = s.modernCache ∧
      getModule s2 s.nextId =
        some { package := pkg, handle := newTbl, st := ident,
               refs := oldM.funcsList.length, hash := some true,
               funcsList := oldM.funcsList.reverse } ∧
      (∀ sid, sid ∈ oldM.funcsList → getSym s2 sid =
        some { name := (symOf sid).name, module := some s.nextId,
               addr := some (addrOf sid) }) ∧
      (∀ sid, sid ∉ oldM.funcsList → getSym s2 sid = getSym s sid) ∧
      (getModule s2 oldId = if p = 0 then none
        else some { oldM with funcsList := [], refs := p, hash := none }) ∧
      (∀ mid, mid ≠ oldId → mid ≠ s.nextId → getModule s2 mid = getModule s mid) :=
  module_reload_spec fs s pkg oldId oldM ident newTbl symOf addrOf p
    hfind hfs hold hfresh hnd hnonempty hrefs hsyms hres

/--
Witness for C2: reloading `m` with both bindings resolved and no transient
pins moves both bindings to the new module (id 1) and destroys the old one.
-/
theorem C2_reload_retargets_witness :
    ∃ s2, module_reload fsNew reloadState0 "m" = .ok s2 ∧
      aget s2.legacyCache "m" = some 1 ∧
      (∀ q, q ≠ "m" → aget s2.legacyCache q = aget reloadState0.legacyCache q) ∧
      s2.modernCache = reloadState0.modernCache ∧
      getModule s2 1 =
        some { package := "m", handle := newTbl, st := identNew,
               refs := 2, hash := some true, funcsList := [2, 1] } ∧
      (∀ sid, sid ∈ ([1, 2] : List Nat) → getSym s2 sid =
        some { name := (symOfW sid).name, module := some 1,
               addr := some (addrOfW sid) }) ∧
      (∀ sid, sid ∉ ([1, 2] : List Nat) → getSym s2 sid = getSym reloadState0 sid) ∧
      (getModule s2 0 = if (0 : Nat) = 0 then none
        else some { package := "m", handle := oldTbl, st := identOld,
                    refs := 0, hash := none, funcsList := [] }) ∧
      (∀ mid, mid ≠ 0 → mid ≠ 1 → getModule s2 mid = getModule reloadState0 mid) :=
  C2_reload_retargets fsNew reloadState0 "m" 0
    { package := "m", handle := oldTbl, st := identOld, refs := 2,
      hash := some true, funcsList := [1, 2] }
    identNew newTbl symOfW addrOfW 0
    (by decide) (by decide) (by decide) (by decide) (by decide) (by decide)
    (by decide) (by decide) (by decide)

/--
**C6.**  A call through a resolved binding snapshots the binding's module and
references it before invoking the entry point: the state handed to the callee
carries the extra pin, a `reload_legacy` of the same package run while the
call is in flight leaves the snapshotted module alive (orphaned, `refs = 1`,
the pin), and only the post-call unref destroys it; the call completes
normally with the binding retargeted to the new module.
-/
theorem C6_call_pins_module (fs : FS) (s : MCState) (sid : Nat) (nm : String)
    (a : Nat) (pkg : String) (oldId : Nat) (oldM : Module) (ident : Identity)
    (newTbl : SymTable) (symOf : Nat → ModuleSym) (addrOf : Nat → Nat)
    (hsym : getSym s sid = some { name := nm, module := some oldId, addr := some a })
    (hfind : aget s.legacyCache pkg = some oldId)
    (hfs : fs pkg = some (ident, newTbl))
    (hold : getModule s oldId = some oldM)
    (hfresh : getModule s s.nextId = none)
    (hnd : oldM.funcsList.Nodup)
    (hmem : sid ∈ oldM.funcsList)
    (hrefs : oldM.refs = oldM.funcsList.length)
    (hsyms : ∀ j, j ∈ oldM.funcsList → getSym s j = some (symOf j))
    (hres : ∀ j, j ∈ oldM.funcsList →
      aget newTbl (func_split_name (symOf j).name).sym = some (addrOf j)) :
    ∃ sAfter sFin,
      module_ref s oldId =
        some (setModule s oldId { oldM with refs := oldM.refs + 1 }) ∧
      module_reload fs (setModule s oldId { oldM with refs := oldM.refs + 1 }) pkg
        = .ok sAfter ∧
      (getModule sAfter oldId).map Module.refs = some 1 ∧
      (getModule sAfter oldId).map Module.hash = some none ∧
      module_sym_call fs (reload_body fs pkg) s sid = .ok sFin ∧
      getModule sFin oldId = none ∧
      getSym sFin sid = some { name := (symOf sid).name, module := some s.nextId,
                               addr := some (addrOf sid) } ∧
      (getModule sFin s.nextId).map Module.refs = some oldM.funcsList.length ∧
      aget sFin.legacyCache pkg = some s.nextId := by
  have hne : oldId ≠ s.nextId := by
    intro h
    rw [h, hfresh] at hold
    exact Option.noConfusion hold
  have hrefsome : module_ref s oldId =
      some (setModule s oldId { oldM with refs := oldM.refs + 1 }) :=
    module_ref_some s oldId oldM hold
  obtain ⟨sAfter, hrunR, hlcR, _, _, hgnR, hsyR, _, hgoR, _⟩ :=
    module_reload_spec fs (setModule s oldId { oldM with refs := oldM.refs + 1 })
      pkg oldId { oldM with refs := oldM.refs + 1 } ident newTbl symOf addrOf 1
      hfind hfs (getModule_setModule_self _ _ _)
      (by rw [nextId_setModule, getModule_setModule_ne _ _ _ _ hne]; exact hfresh)
      hnd (List.ne_nil_of_mem hmem)
      (by simp only; omega)
      (by
        intro j hj
        rw [getSym_setModule]
        exact hsyms j hj)
      hres
  rw [nextId_setModule] at hgnR hlcR
  simp only [nextId_setModule] at hsyR
  have hgoR2 : getModule sAfter oldId =
      some { oldM with funcsList := [], refs := 1, hash := none } := by
    rw [hgoR, if_neg (by omega)]
  have hunrefO : module_unref sAfter oldId = some (removeModule sAfter oldId) :=
    module_unref_last_orphan _ _ _ hgoR2 rfl rfl
  have hbody : reload_body fs pkg
      (setModule s oldId { oldM with refs := oldM.refs + 1 }) = (sAfter, 0) := by
    simp only [reload_body, hrunR]
  have hcall : module_sym_call fs (reload_body fs pkg) s sid =
      .ok (removeModule sAfter oldId) := by
    simp only [module_sym_call, hsym, hrefsome, hbody, hunrefO]
    simp
  refine ⟨sAfter, removeModule sAfter oldId, hrefsome, hrunR, ?_, ?_, hcall,
          ?_, ?_, ?_, ?_⟩
  · rw [hgoR2]; rfl
  · rw [hgoR2]; rfl
  · rw [getModule_removeModule, if_pos rfl]
  · rw [getSym_removeModule]
    exact hsyR sid hmem
  · rw [getModule_removeModule, if_neg hne, hgnR]
    rfl
  · rw [legacyCache_removeModule]
    exact hlcR

/--
Witness for C6: a call through `m.f1` pinned module 0 across an in-flight
`reload_legacy("m")`; the old module survived the reload with the single call
pin and was destroyed only by the post-call unref, while the binding ended up
on the new module (id 1).
-/
theorem C6_call_pins_module_witness :
    ∃ sAfter sFin,
      module_ref reloadState0 0 =
        some (setModule reloadState0 0
          { package := "m", handle := oldTbl, st := identOld, refs := 3,
            hash := some true, funcsList := [1, 2] }) ∧
      module_reload fsNew (setModule reloadState0 0
          { package := "m", handle := oldTbl, st := identOld, refs := 3,
            hash := some true, funcsList := [1, 2] }) "m" = .ok sAfter ∧
      (getModule sAfter 0).map Module.refs = some 1 ∧
      (getModule sAfter 0).map Module.hash = some none ∧
      module_sym_call fsNew (reload_body fsNew "m") reloadState0 1 = .ok sFin ∧
      getModule sFin 0 = none ∧
      getSym sFin 1 = some { name := (symOfW 1).name, module := some 1,
                             addr := some (addrOfW 1) } ∧
      (getModule sFin 1).map Module.refs = some 2 ∧
      aget sFin.legacyCache "m" = some 1 :=
  C6_call_pins_module fsNew reloadState0 1 "m.f1" 10 "m" 0
    { package := "m", handle := oldTbl, st := identOld, refs := 2,
      hash := some true, funcsList := [1, 2] }
    identNew newTbl symOfW addrOfW
    (by decide) (by decide) (by decide) (by decide) (by decide) (by decide)
    (by decide) (by decide) (by decide) (by decide)

end MC
